import Mathlib

/-!
# Calendar bot: parsing, confirmation round trip, command router, event store

A shallow embedding of the JavaScript sources `utils.js`, `messages.js`,
`index.js`, `commands.js` and `database.js`.

* JavaScript strings are lists of characters (`Str`).  All the string
  operations used by the sources (`split`, `join`, `trim`, `replace`,
  `startsWith`, `includes`, `slice`) act on well-formed text the same way
  on code points as on UTF-16 code units.
* `async` functions are functions on an explicit world (database state and
  the log of calls made to the chat transport); a rejected promise or a thrown
  exception is `Except.error`.
* The libraries the sources call but do not contain are parameters:
  `chrono.parse`, the process time zone, the clock and the text generator.
* Numbers are the doubles whose value is an integer, `NaN` and the two
  infinities: `parseInt` and the arithmetic on its result round to the nearest
  double, and a number is printed as JavaScript prints it.
-/

namespace TgBot

/-! ## JavaScript strings -/

/-- A JavaScript string. -/
abbrev Str := List Char

/-- `s.split(sep)` for a one-character separator, here as the list of the
pieces after the first one is started: `splitAux sep cur s` has `cur` as the
characters already read of the current piece. -/
def splitAux (sep : Char) : Str → Str → List Str
  | cur, [] => [cur]
  | cur, c :: cs => if c = sep then cur :: splitAux sep [] cs else splitAux sep (cur ++ [c]) cs

/-- `s.split(sep)` for a one-character separator. -/
def split (sep : Char) (s : Str) : List Str := splitAux sep [] s

/-- `parts.join(sep)`. -/
def join (sep : Str) : List Str → Str
  | [] => []
  | [p] => p
  | p :: q :: ps => p ++ sep ++ join sep (q :: ps)

/-- The characters `String.prototype.trim` strips and `parseInt` skips:
ECMAScript WhiteSpace and LineTerminator. -/
def isWhiteSpace (c : Char) : Bool :=
  let n := c.toNat
  n = 0x09 || n = 0x0A || n = 0x0B || n = 0x0C || n = 0x0D || n = 0x20 || n = 0xA0 ||
  n = 0x1680 || (0x2000 ≤ n && n ≤ 0x200A) || n = 0x2028 || n = 0x2029 || n = 0x202F ||
  n = 0x205F || n = 0x3000 || n = 0xFEFF

/-- `s.trimStart()`. -/
def trimStart : Str → Str
  | [] => []
  | c :: cs => if isWhiteSpace c then trimStart cs else c :: cs

/-- `s.trim()`. -/
def trim (s : Str) : Str := (trimStart (trimStart s).reverse).reverse

/-- `s.startsWith(p)`. -/
def startsWith (s p : Str) : Bool := p.isPrefixOf s

/-- `s.includes(p)`. -/
def includes : Str → Str → Bool
  | [], p => p.isEmpty
  | c :: cs, p => startsWith (c :: cs) p || includes cs p

/-- `text.replace(pat, rep)` for a string pattern and a replacement without
`$`: the first occurrence of `pat` is replaced, and a text without one is
returned unchanged. -/
def replace (pat rep : Str) : Str → Str
  | [] => if pat.isEmpty then rep else []
  | c :: cs => if startsWith (c :: cs) pat then rep ++ (c :: cs).drop pat.length
               else c :: replace pat rep cs

/-- `n.toString().padStart(2, '0')` for a natural number. -/
def pad2 (n : Nat) : Str :=
  let s := (Nat.repr n).toList
  List.replicate (2 - s.length) '0' ++ s

/-- `padStart(k, '0')` of the decimal digits of a natural number. -/
def padNat (k n : Nat) : Str :=
  let s := (Nat.repr n).toList
  List.replicate (k - s.length) '0' ++ s

/-! ## JavaScript numbers and `parseInt` -/

/-- The numbers the sources handle: `NaN`, a double whose value is an integer
(`-0` is `0` here: the sources do not tell them apart), `Infinity` or
`-Infinity`. -/
inductive JsNum where
  | nan
  | int (i : Int)
  | infinity (negative : Bool)
  deriving DecidableEq, Repr

/-- The number of binary digits of a natural number, with `fuel` steps. -/
def bitLengthAux : Nat → Nat → Nat
  | 0, _ => 0
  | fuel + 1, n => if n = 0 then 0 else bitLengthAux fuel (n / 2) + 1

/-- The number of binary digits of a natural number. -/
def bitLength (n : Nat) : Nat := bitLengthAux n n

/-- The double nearest to a natural number, ties to the even significand of 53
bits; `none` when it is `Infinity`. -/
def roundToDouble (n : Nat) : Option Nat :=
  if n < 2 ^ 53 then some n
  else
    let e := bitLength n - 53
    let q := n / 2 ^ e
    let r := n % 2 ^ e
    let q1 := if 2 ^ (e - 1) < r ∨ (r = 2 ^ (e - 1) ∧ q % 2 = 1) then q + 1 else q
    if bitLength (q1 * 2 ^ e) ≤ 1024 then some (q1 * 2 ^ e) else none

/-- The Number value of an integer. -/
def JsNum.ofInt (i : Int) : JsNum :=
  match roundToDouble i.natAbs with
  | some v => .int (if i < 0 then - (v : Int) else (v : Int))
  | none => .infinity (decide (i < 0))

/-- The search of `shortestDecimal`: with `k` significant digits, the multiples
of `10 ^ (d - k)` next to `v` are tried, and `k + 1` digits when neither is
read back as `v`. -/
def shortestDecimalAux (v d : Nat) : Nat → Nat → Nat
  | 0, _ => v
  | fuel + 1, k =>
    let p := 10 ^ (d - k)
    let lo := v / p * p
    let hi := lo + p
    if roundToDouble lo = some v ∧ roundToDouble hi = some v then
      if v - lo < hi - v then lo else if hi - v < v - lo then hi
      else if (v / p) % 2 = 0 then lo else hi
    else if roundToDouble lo = some v then lo
    else if roundToDouble hi = some v then hi
    else shortestDecimalAux v d fuel (k + 1)

/-- The decimal that `Number.prototype.toString` prints for a double `v` whose
value is a natural number: the one with the fewest significant digits that is
read back as `v`, and the nearest to `v` among those. -/
def shortestDecimal (v : Nat) : Nat :=
  if v < 2 ^ 53 then v else shortestDecimalAux v (Nat.repr v).length 17 1

/-- `Number.prototype.toString` of a double whose value is a natural number:
all the digits up to 21 of them, the form `d.ddde+n` from there on. -/
def numberToString (v : Nat) : Str :=
  let ds := (Nat.repr (shortestDecimal v)).toList
  if ds.length ≤ 21 then ds
  else
    match (ds.reverse.dropWhile (fun c => c = '0')).reverse with
    | [] => ds
    | c :: rest =>
      (if rest.isEmpty then [c] else c :: '.' :: rest) ++ "e+".toList ++
        (Nat.repr (ds.length - 1)).toList

/-- Template-literal conversion of a number to a string. -/
def JsNum.toStr : JsNum → Str
  | .nan => "NaN".toList
  | .int i => if i < 0 then '-' :: numberToString i.natAbs else numberToString i.natAbs
  | .infinity negative => if negative then "-Infinity".toList else "Infinity".toList

/-- The product `a * k` of a number and a positive integer constant. -/
def JsNum.mulConst (a : JsNum) (k : Int) : JsNum :=
  match a with
  | .nan => .nan
  | .int i => JsNum.ofInt (i * k)
  | .infinity negative => .infinity negative

/-- The difference `t - a` of an integer-valued double `t` and a number. -/
def JsNum.subFrom (t : Int) (a : JsNum) : JsNum :=
  match a with
  | .nan => .nan
  | .int i => JsNum.ofInt (t - i)
  | .infinity negative => .infinity (!negative)

/-- The value of a digit in the given radix, if it is one. -/
def digitValue (radix : Nat) (c : Char) : Option Nat :=
  let n := c.toNat
  let v := if 48 ≤ n ∧ n ≤ 57 then n - 48
           else if 97 ≤ n ∧ n ≤ 122 then n - 97 + 10
           else if 65 ≤ n ∧ n ≤ 90 then n - 65 + 10
           else radix
  if v < radix then some v else none

/-- The longest run of leading digits, read in the given radix: the value read
so far and whether a digit was seen. -/
def readDigits (radix : Nat) : Str → (Nat × Bool) → (Nat × Bool)
  | [], acc => acc
  | c :: cs, acc =>
    match digitValue radix c with
    | some v => readDigits radix cs (acc.1 * radix + v, true)
    | none => acc

/-- `parseInt(s)` without a radix argument: the double nearest to the integer
the digits denote. -/
def parseInt (s : Str) : JsNum :=
  let s1 := trimStart s
  let neg := startsWith s1 ['-']
  let s2 := if startsWith s1 ['-'] || startsWith s1 ['+'] then s1.drop 1 else s1
  let hex := startsWith s2 ['0', 'x'] || startsWith s2 ['0', 'X']
  let s3 := if hex then s2.drop 2 else s2
  let r := readDigits (if hex then 16 else 10) s3 (0, false)
  if r.2 then JsNum.ofInt (if neg then - (r.1 : Int) else (r.1 : Int)) else JsNum.nan

/-! ## JavaScript dates -/

/-- Milliseconds in a day. -/
def msPerDay : Int := 86400000

/-- ECMAScript `Day(t)`: the day number of a time value (floor division). -/
def Day (t : Int) : Int := t / msPerDay

/-- ECMAScript `HourFromTime`. -/
def HourFromTime (t : Int) : Int := (t / 3600000) % 24

/-- ECMAScript `MinFromTime`. -/
def MinFromTime (t : Int) : Int := (t / 60000) % 60

/-- ECMAScript `SecFromTime`. -/
def SecFromTime (t : Int) : Int := (t / 1000) % 60

/-- ECMAScript `msFromTime`. -/
def msFromTime (t : Int) : Int := t % 1000

/-- Year, month (1..12) and day of month (1..31) of a day number in the
proleptic Gregorian calendar: ECMAScript `YearFromTime`, `MonthFromTime + 1`
and `DateFromTime`. -/
def civilFromDays (day : Int) : Int × Int × Int :=
  let z := day + 719468
  let era := z / 146097
  let doe := z % 146097
  let yoe := (doe - doe / 1460 + doe / 36524 - doe / 146096) / 365
  let doy := doe - (365 * yoe + yoe / 4 - yoe / 100)
  let mp := (5 * doy + 2) / 153
  let d := doy - (153 * mp + 2) / 5 + 1
  let m := if mp < 10 then mp + 3 else mp - 9
  let y := yoe + era * 400
  (if m ≤ 2 then y + 1 else y, m, d)

/-- The year of `toISOString`: four digits for 0..9999, otherwise a sign and
six digits. -/
def isoYear (y : Int) : Str :=
  if 0 ≤ y ∧ y ≤ 9999 then padNat 4 y.toNat
  else (if y < 0 then '-' else '+') :: padNat 6 y.natAbs

/-- `new Date(t).toISOString()`: the UTC fields of the time value, as
`YYYY-MM-DDTHH:mm:ss.sssZ`. -/
def toISOString (t : Int) : Str :=
  let ymd := civilFromDays (Day t)
  isoYear ymd.1 ++ ['-'] ++ pad2 ymd.2.1.toNat ++ ['-'] ++ pad2 ymd.2.2.toNat ++ ['T'] ++
    pad2 (HourFromTime t).toNat ++ [':'] ++ pad2 (MinFromTime t).toNat ++ [':'] ++
    pad2 (SecFromTime t).toNat ++ ['.'] ++ padNat 3 (msFromTime t).toNat ++ ['Z']

/-- ECMAScript `LocalTime(t)`, for a process time zone given by its offset
from UTC in milliseconds at each instant. -/
def LocalTime (localTZA : Int → Int) (t : Int) : Int := t + localTZA t

/-- `date.getHours()`. -/
def getHours (localTZA : Int → Int) (t : Int) : Nat := (HourFromTime (LocalTime localTZA t)).toNat

/-- `date.getMinutes()`. -/
def getMinutes (localTZA : Int → Int) (t : Int) : Nat := (MinFromTime (LocalTime localTZA t)).toNat

/-! ## utils.js -/

/-- One result of `chrono.parse`: where in the text the match starts
(`.index`), the matched substring (`.text`) and the instant `.start.date()` as
a time value, in milliseconds since the epoch. -/
structure ParsedResult where
  index : Nat
  text : Str
  start : Int
  deriving DecidableEq, Repr

/-- What the sources throw. -/
inductive JsError where
  | error (message : Str)
  | referenceError (name : Str)
  | rangeError
  | sqliteConstraint (column : Str)
  deriving DecidableEq, Repr

/-- Equality of results is decidable. -/
instance instDecidableEqExcept {ε α : Type} [DecidableEq ε] [DecidableEq α] :
    DecidableEq (Except ε α)
  | .ok a, .ok b => if h : a = b then isTrue (by rw [h]) else isFalse (fun h1 => h (by cases h1; rfl))
  | .error a, .error b =>
    if h : a = b then isTrue (by rw [h]) else isFalse (fun h1 => h (by cases h1; rfl))
  | .ok _, .error _ => isFalse (fun h => by cases h)
  | .error _, .ok _ => isFalse (fun h => by cases h)

/-- The object `parseDateTime` returns. -/
structure DateTime where
  date : Str
  time : Str
  description : Str
  deriving DecidableEq, Repr

/-- The placeholder of an empty description. -/
def noDescription : Str := "No description provided".toList

/-- `a || b` on strings: the empty string is falsy. -/
def strOr (a b : Str) : Str := if a.isEmpty then b else a

/-- The time string of `parseDateTime`:
`${hours.toString().padStart(2, '0')}:${minutes.toString().padStart(2, '0')}`. -/
def timeString (hours minutes : Nat) : Str := pad2 hours ++ [':'] ++ pad2 minutes

/-- `parseDateTime(text)` of utils.js. -/
def parseDateTime (chrono : Str → List ParsedResult) (localTZA : Int → Int) (text : Str) :
    Except JsError DateTime :=
  match chrono text with
  | [] => .error (.error "No date/time found in text".toList)
  | first :: _ =>
    let date := first.start
    let dateStr := (split 'T' (toISOString date)).headD []
    let timeStr := timeString (getHours localTZA date) (getMinutes localTZA date)
    let description := trim (replace first.text [] text)
    .ok { date := dateStr, time := timeStr, description := strOr description noDescription }

/-! ## database.js -/

/-- A row of the `events` table (`created_at`, which no operation reads, is
left out). -/
structure Event where
  id : Nat
  date : Str
  time : Str
  description : Str
  participants : Option Str
  message_link : Option Str
  status : Str
  deriving DecidableEq, Repr

/-- A row of the `messages` table. -/
structure MessageRow where
  id : Nat
  chat_id : Int
  user_id : Int
  username : Option Str
  message_text : Str
  timestamp : Str
  deriving DecidableEq, Repr

/-- The database: the two tables the operations below use, each with the
counter SQLite keeps for its `AUTOINCREMENT` key. -/
structure Store where
  events : List Event
  eventSeq : Nat
  messages : List MessageRow
  messageSeq : Nat
  deriving DecidableEq, Repr

/-- The database `initDB` creates. -/
def Store.empty : Store := { events := [], eventSeq := 0, messages := [], messageSeq := 0 }

/-- A message as the transport delivers it: `msg.chat.id`, `msg.from.id`,
`msg.from.username` and `msg.text`. -/
structure Msg where
  chatId : Int
  fromId : Int
  username : Option Str
  text : Str
  deriving DecidableEq, Repr

/-- What a caller passes where a chat id is expected: a chat id, or a whole
message object. -/
inductive ChatArg where
  | id (n : Int)
  | message (m : Msg)
  deriving DecidableEq, Repr

/-- The largest `id` of the rows of `events` (0 for an empty table). -/
def maxEventId : List Event → Nat
  | [] => 0
  | e :: es => max e.id (maxEventId es)

/-- The largest `id` of the rows of `messages` (0 for an empty table). -/
def maxMessageId : List MessageRow → Nat
  | [] => 0
  | m :: ms => max m.id (maxMessageId ms)

/-- SQLite's comparison of two texts under the `BINARY` collation: the order
of their UTF-8 bytes, which is the lexicographic order of their code points. -/
def strLe : Str → Str → Bool
  | [], _ => true
  | _ :: _, [] => false
  | a :: as, b :: bs =>
    if a.toNat < b.toNat then true else if b.toNat < a.toNat then false else strLe as bs

/-- `dbOperations.addEvent`: `INSERT INTO events (date, time, description,
participants, message_link) VALUES (?, ?, ?, ?, ?)` and `result.lastID`.
`none` is a parameter bound as `NULL` (JavaScript `null` or `undefined`); the
columns `date`, `time` and `description` are `NOT NULL`; the key is
`AUTOINCREMENT`; `status` takes its default. -/
def Store.addEvent (date time description participants messageLink : Option Str) (s : Store) :
    Except JsError Nat × Store :=
  match date, time, description with
  | none, _, _ => (.error (.sqliteConstraint "events.date".toList), s)
  | some _, none, _ => (.error (.sqliteConstraint "events.time".toList), s)
  | some _, some _, none => (.error (.sqliteConstraint "events.description".toList), s)
  | some d, some t, some desc =>
    let lastID := max s.eventSeq (maxEventId s.events) + 1
    (.ok lastID,
      { s with
        events := s.events ++ [{ id := lastID, date := d, time := t, description := desc,
                                 participants := participants, message_link := messageLink,
                                 status := "confirmed".toList }],
        eventSeq := lastID })

/-- `dbOperations.getEvents`: `SELECT * FROM events WHERE date = ? ORDER BY
time`. (SQLite leaves the order of rows of equal `time` open; here they keep
their order of insertion.) -/
def Store.getEvents (date : Str) (s : Store) : Except JsError (List Event) × Store :=
  (.ok (List.insertionSort (fun a b : Event => strLe a.time b.time = true)
      (s.events.filter (fun e => decide (e.date = date)))), s)

/-- `dbOperations.deleteEvent`: `DELETE FROM events WHERE id = ?`. `NaN` is
bound as `NULL`, which equals no id. -/
def Store.deleteEvent (id : JsNum) (s : Store) : Except JsError Unit × Store :=
  (.ok (), { s with events := s.events.filter (fun e => !decide (JsNum.int (e.id : Int) = id)) })

/-- SQLite's `CURRENT_TIMESTAMP` at a time value: `YYYY-MM-DD HH:MM:SS` in UTC. -/
def currentTimestamp (now : Int) : Str :=
  let ymd := civilFromDays (Day now)
  padNat 4 ymd.1.toNat ++ ['-'] ++ pad2 ymd.2.1.toNat ++ ['-'] ++ pad2 ymd.2.2.toNat ++ [' '] ++
    pad2 (HourFromTime now).toNat ++ [':'] ++ pad2 (MinFromTime now).toNat ++ [':'] ++
    pad2 (SecFromTime now).toNat

/-- `dbOperations.addMessage`: `INSERT INTO messages (chat_id, user_id,
username, message_text) VALUES (?, ?, ?, ?)`; `timestamp` takes its default,
`CURRENT_TIMESTAMP`. -/
def Store.addMessage (now : Int) (chatId userId : Int) (username : Option Str)
    (messageText : Option Str) (s : Store) : Except JsError Nat × Store :=
  match messageText with
  | none => (.error (.sqliteConstraint "messages.message_text".toList), s)
  | some text =>
    let lastID := max s.messageSeq (maxMessageId s.messages) + 1
    (.ok lastID,
      { s with
        messages := s.messages ++ [{ id := lastID, chat_id := chatId, user_id := userId,
                                     username := username, message_text := text,
                                     timestamp := currentTimestamp now }],
        messageSeq := lastID })

/-- `dbOperations.getMessages`: `new Date(Date.now() - hours * 60 * 60 *
1000).toISOString()`, which throws a `RangeError` for an invalid date, then
`SELECT * FROM messages WHERE chat_id = ? AND timestamp > ? ORDER BY
timestamp`. A message object bound for `chat_id` is bound as a text, which
equals no integer. -/
def Store.getMessages (now : Int) (chatId : ChatArg) (hours : JsNum) (s : Store) :
    Except JsError (List MessageRow) × Store :=
  match JsNum.subFrom now (((hours.mulConst 60).mulConst 60).mulConst 1000) with
  | .nan => (.error .rangeError, s)
  | .infinity _ => (.error .rangeError, s)
  | .int t =>
    if t < -8640000000000000 ∨ 8640000000000000 < t then (.error .rangeError, s)
    else
      let timeAgo := toISOString t
      (.ok (List.insertionSort (fun a b : MessageRow => strLe a.timestamp b.timestamp = true)
          (s.messages.filter (fun m =>
            decide (ChatArg.id m.chat_id = chatId) &&
              (strLe timeAgo m.timestamp && !decide (timeAgo = m.timestamp))))), s)

/-- The operations of `dbOperations` the handlers call, over any state and
with any behaviour. -/
structure Db (σ : Type) where
  addEvent : Option Str → Option Str → Option Str → σ → Except JsError Nat × σ
  getEvents : Str → σ → Except JsError (List Event) × σ
  deleteEvent : JsNum → σ → Except JsError Unit × σ
  addMessage : Int → Int → Option Str → Option Str → σ → Except JsError Nat × σ
  getMessages : ChatArg → JsNum → σ → Except JsError (List MessageRow) × σ

/-- The operations of database.js, at the clock reading `now`. The callers
leave `participants` and `messageLink` at their default, `null`. -/
def sqlite (now : Int) : Db Store where
  addEvent := fun date time description => Store.addEvent date time description none none
  getEvents := Store.getEvents
  deleteEvent := Store.deleteEvent
  addMessage := Store.addMessage now
  getMessages := Store.getMessages now

/-- An operation that changes the database. -/
inductive StoreOp where
  | addEvent (date time description participants messageLink : Option Str)
  | deleteEvent (id : JsNum)
  | addMessage (now chatId userId : Int) (username messageText : Option Str)
  deriving DecidableEq, Repr

/-- The database after an operation, whether it succeeded or threw. -/
def StoreOp.run : StoreOp → Store → Store
  | .addEvent date time description participants messageLink, s =>
    (Store.addEvent date time description participants messageLink s).2
  | .deleteEvent id, s => (Store.deleteEvent id s).2
  | .addMessage now chatId userId username messageText, s =>
    (Store.addMessage now chatId userId username messageText s).2

/-- The database after a sequence of operations, first to last. -/
def runOps : List StoreOp → Store → Store
  | [], s => s
  | op :: ops, s => runOps ops (op.run s)

/-! ## The chat transport and the world -/

/-- A button of an inline keyboard. -/
structure Button where
  text : Str
  callback_data : Str
  deriving DecidableEq, Repr

/-- A call to the chat transport. -/
inductive BotCall where
  | sendMessage (chatId : ChatArg) (text : Str) (inline_keyboard : List Button)
  | answerCallbackQuery (queryId : Str) (text : Option Str)
  | deleteMessage (chatId : Int) (messageId : Int)
  | editMessageText (text : Str) (chatId : Int) (messageId : Int)
  deriving DecidableEq, Repr

/-- The state a handler runs in: the database and the calls made to the chat
transport so far, oldest first. -/
structure World (σ : Type) where
  db : σ
  calls : List BotCall

/-- What the handlers read from their surroundings: `chrono.parse`, the
process time zone, the clock, `model.generateContent(prompt)` followed by
`result.response.text()`, and the text of `bot.options.username` in a
template literal. -/
structure Env where
  chrono : Str → List ParsedResult
  localTZA : Int → Int
  now : Int
  generateContent : Str → Except JsError Str
  botUsername : Str

/-- An `async` function: it runs on a world and returns or throws. -/
abbrev Task (σ α : Type) := World σ → Except JsError α × World σ

/-- The statement `try { body } catch (error) { handler }`. -/
def tryCatch {σ α : Type} (body : Task σ α) (handler : JsError → Task σ α) : Task σ α := fun w =>
  match body w with
  | (.ok a, w1) => (.ok a, w1)
  | (.error e, w1) => handler e w1

/-- Record a call to the chat transport. (The transport itself is outside the
sources: its calls are recorded and do not throw.) -/
def call {σ : Type} (c : BotCall) (w : World σ) : World σ := { w with calls := w.calls ++ [c] }

/-- The call `bot.sendMessage(chatId, text)`. -/
def sendMessage {σ : Type} (chatId : ChatArg) (text : Str) (w : World σ) : World σ :=
  call (.sendMessage chatId text []) w

/-- Run a database operation in the world. -/
def onDb {σ α : Type} (op : σ → Except JsError α × σ) : Task σ α := fun w =>
  ((op w.db).1, { w with db := (op w.db).2 })

/-! ## commands.js -/

/-- The text `Event added successfully!\nID: ${eventId}\nDate: ${date}\nTime:
${time}\nDescription: ${description}` of `handleAddEvent` and of the callback
handler. -/
def eventAddedText (eventId : Nat) (date time description : Str) : Str :=
  "Event added successfully!\nID: ".toList ++ (Nat.repr eventId).toList ++ "\nDate: ".toList ++
    date ++ "\nTime: ".toList ++ time ++ "\nDescription: ".toList ++ description

/-- `handleAddEvent(bot, chatId, args)`. -/
def handleAddEvent {σ : Type} (db : Db σ) (env : Env) (chatId : ChatArg) (args : Str) :
    Task σ Unit :=
  tryCatch
    (fun w =>
      match parseDateTime env.chrono env.localTZA args with
      | .error e => (.error e, w)
      | .ok r =>
        match onDb (db.addEvent (some r.date) (some r.time) (some r.description)) w with
        | (.error e, w1) => (.error e, w1)
        | (.ok eventId, w1) =>
          (.ok (), sendMessage chatId (eventAddedText eventId r.date r.time r.description) w1))
    (fun _ w =>
      (.ok (), sendMessage chatId
        "Error adding event. Please check the format and try again.".toList w))

/-- `handleDeleteEvent(bot, chatId, args)`. -/
def handleDeleteEvent {σ : Type} (db : Db σ) (chatId : ChatArg) (args : Str) : Task σ Unit :=
  tryCatch
    (fun w =>
      let eventId := parseInt args
      match onDb (db.deleteEvent eventId) w with
      | (.error e, w1) => (.error e, w1)
      | (.ok _, w1) =>
        (.ok (), sendMessage chatId
          ("Event ".toList ++ eventId.toStr ++ " has been deleted.".toList) w1))
    (fun _ w =>
      (.ok (), sendMessage chatId
        "Error deleting event. Please check the ID and try again.".toList w))

/-- `handleShowEvents(bot, chatId, args)`. -/
def handleShowEvents {σ : Type} (db : Db σ) (env : Env) (chatId : ChatArg) (args : Str) :
    Task σ Unit :=
  tryCatch
    (fun w =>
      let date := strOr args ((split 'T' (toISOString env.now)).headD [])
      match onDb (db.getEvents date) w with
      | (.error e, w1) => (.error e, w1)
      | (.ok events, w1) =>
        if events.length = 0 then
          (.ok (), sendMessage chatId ("No events found for ".toList ++ date) w1)
        else
          let eventsList := join ['\n']
            (events.map (fun e => "🕒 ".toList ++ e.time ++ " - ".toList ++ e.description))
          (.ok (), sendMessage chatId
            ("Events for ".toList ++ date ++ ":\n".toList ++ eventsList) w1))
    (fun _ w => (.ok (), sendMessage chatId "Error showing events. Please try again.".toList w))

/-- `parseInt(args) || 24`: `NaN` and `0` are falsy. -/
def hoursOr24 (n : JsNum) : JsNum :=
  match n with
  | .nan => .int 24
  | .int i => if i = 0 then .int 24 else .int i
  | .infinity negative => .infinity negative

/-- The text of `${m.username}` for a column that may be `NULL`. -/
def nullable (s : Option Str) : Str := s.getD "null".toList

/-- `handleSummarize(bot, chatId, args, model)`. -/
def handleSummarize {σ : Type} (db : Db σ) (env : Env) (chatId : ChatArg) (args : Str) :
    Task σ Unit :=
  tryCatch
    (fun w =>
      let hours := hoursOr24 (parseInt args)
      match onDb (db.getMessages chatId hours) w with
      | (.error e, w1) => (.error e, w1)
      | (.ok messages, w1) =>
        if messages.length = 0 then
          (.ok (), sendMessage chatId "No messages found for the specified period.".toList w1)
        else
          let prompt := "Summarize the following conversation:\n".toList ++ join ['\n']
            (messages.map (fun m => nullable m.username ++ ": ".toList ++ m.message_text))
          match env.generateContent prompt with
          | .error e => (.error e, w1)
          | .ok summary =>
            (.ok (), sendMessage chatId
              ("Summary of the last ".toList ++ hours.toStr ++ " hours:\n\n".toList ++ summary)
              w1))
    (fun _ w =>
      (.ok (), sendMessage chatId "Error generating summary. Please try again.".toList w))

/-- The word a command message starts with: `msg.text.split(' ')[0]`. -/
def commandOf (msg : Msg) : Str := (split ' ' msg.text).headD []

/-- The argument string of a command message:
`msg.text.slice(command.length).trim()`. -/
def argsOf (msg : Msg) : Str := trim (msg.text.drop (commandOf msg).length)

/-- `handleCommand(bot, msg, model)`. Every handler is called with `msg` as its
second argument; `handleSetReminder` is declared nowhere, so that calling it
throws a `ReferenceError`. -/
def handleCommand {σ : Type} (db : Db σ) (env : Env) (msg : Msg) : Task σ Unit := fun w =>
  let chatId := msg.chatId
  let command := commandOf msg
  let args := argsOf msg
  if command = "/add".toList ∨ command = "/добавить".toList then
    handleAddEvent db env (.message msg) args w
  else if command = "/delete".toList ∨ command = "/удалить".toList then
    handleDeleteEvent db (.message msg) args w
  else if command = "/show".toList ∨ command = "/показать".toList then
    handleShowEvents db env (.message msg) args w
  else if command = "/remind".toList ∨ command = "/напомнить".toList then
    (.error (.referenceError "handleSetReminder".toList), w)
  else if command = "/summarize".toList ∨ command = "/пересказать".toList then
    handleSummarize db env (.message msg) args w
  else
    (.ok (), sendMessage (.id chatId) "Unknown command. Please try again.".toList w)

/-! ## messages.js -/

/-- `generateBotResponse(text, model)`. -/
def generateBotResponse (env : Env) (text : Str) : Str :=
  match env.generateContent
      ("As a helpful calendar assistant, respond to this message: \"".toList ++ text ++ ['"']) with
  | .ok response => response
  | .error _ => "I'm sorry, I couldn't generate a response. Please try again.".toList

/-- The payload of the button `Yes`: `add_event:${date}:${time}:${description}`. -/
def acceptPayload (date time description : Str) : Str :=
  "add_event:".toList ++ date ++ [':'] ++ time ++ [':'] ++ description

/-- The proposal `handleMessage` sends for a detected event. -/
def proposal (chatId : Int) (date time description : Str) : BotCall :=
  .sendMessage (.id chatId)
    ("I detected an event:\nDate: ".toList ++ date ++ "\nTime: ".toList ++ time ++
      "\nDescription: ".toList ++ description ++
      "\n\nWould you like me to add it to the calendar?".toList)
    [{ text := "Yes".toList, callback_data := acceptPayload date time description },
     { text := "No".toList, callback_data := "ignore".toList }]

/-- `handleMessage(bot, msg, model)`. -/
def handleMessage {σ : Type} (db : Db σ) (env : Env) (msg : Msg) : Task σ Unit := fun w =>
  let chatId := msg.chatId
  match onDb (db.addMessage chatId msg.fromId msg.username (some msg.text)) w with
  | (.error e, w1) => (.error e, w1)
  | (.ok _, w1) =>
    if includes msg.text ('@' :: env.botUsername) then
      (.ok (), sendMessage (.id chatId) (generateBotResponse env msg.text) w1)
    else
      tryCatch
        (fun w2 =>
          match parseDateTime env.chrono env.localTZA msg.text with
          | .error e => (.error e, w2)
          | .ok r =>
            if !r.date.isEmpty && !r.time.isEmpty then
              (.ok (), call (proposal chatId r.date r.time r.description) w2)
            else (.ok (), w2))
        (fun _ w2 => (.ok (), w2))
        w1

/-! ## index.js -/

/-- A callback query: `query.id`, `query.data`, `query.message.chat.id` and
`query.message.message_id`. -/
structure CallbackQuery where
  id : Str
  data : Str
  chatId : Int
  messageId : Int
  deriving DecidableEq, Repr

/-- The text of `${x}` for a destructured element that may be `undefined`. -/
def orUndefined (s : Option Str) : Str := s.getD "undefined".toList

/-- The handler of `callback_query`. -/
def onCallbackQuery {σ : Type} (db : Db σ) (query : CallbackQuery) : Task σ Unit :=
  tryCatch
    (fun w =>
      let chatId := query.chatId
      if query.data = "ignore".toList then
        (.ok (), call (.deleteMessage chatId query.messageId)
          (call (.answerCallbackQuery query.id none) w))
      else if startsWith query.data "add_event:".toList then
        let parts := split ':' query.data
        let date := parts.get? 1
        let time := parts.get? 2
        let description := join [':'] (parts.drop 3)
        match onDb (db.addEvent date time (some description)) w with
        | (.error e, w1) => (.error e, w1)
        | (.ok eventId, w1) =>
          (.ok (), call (.editMessageText
              (eventAddedText eventId (orUndefined date) (orUndefined time) description)
              chatId query.messageId)
            (call (.answerCallbackQuery query.id (some "Event added successfully!".toList)) w1))
      else (.ok (), w))
    (fun _ w => (.ok (), call (.answerCallbackQuery query.id (some "An error occurred".toList)) w))

/-- The handler of `bot.onText(/^\//, ...)`. -/
def onCommand {σ : Type} (db : Db σ) (env : Env) (msg : Msg) : Task σ Unit :=
  tryCatch (handleCommand db env msg)
    (fun _ w =>
      (.ok (), sendMessage (.id msg.chatId)
        "Sorry, there was an error processing your command.".toList w))

/-- The handler of `message`. -/
def onMessage {σ : Type} (db : Db σ) (env : Env) (msg : Msg) : Task σ Unit :=
  tryCatch
    (fun w => if !startsWith msg.text ['/'] then handleMessage db env msg w else (.ok (), w))
    (fun _ w => (.ok (), w))

/-! ## Test doubles and scenarios -/

/-- A call to `dbOperations`. -/
inductive DbCall where
  | addEvent (date time description : Option Str)
  | getEvents (date : Str)
  | deleteEvent (id : JsNum)
  | addMessage (chatId userId : Int) (username messageText : Option Str)
  | getMessages (chatId : ChatArg) (hours : JsNum)
  deriving DecidableEq, Repr

/-- A database double whose state is the list of the calls made to it, oldest
first; every call succeeds, with id 1 or with no rows. -/
def recorder : Db (List DbCall) where
  addEvent := fun date time description log => (.ok 1, log ++ [.addEvent date time description])
  getEvents := fun date log => (.ok [], log ++ [.getEvents date])
  deleteEvent := fun id log => (.ok (), log ++ [.deleteEvent id])
  addMessage := fun chatId userId username messageText log =>
    (.ok 1, log ++ [.addMessage chatId userId username messageText])
  getMessages := fun chatId hours log => (.ok [], log ++ [.getMessages chatId hours])

/-- The text of the scenario of the specification. -/
def scenarioText : Str := "Add meeting tomorrow at 3pm with Alex".toList

/-- The clock of the scenario: 2024-01-01T10:00:00Z. -/
def scenarioNow : Int := 1704103200000

/-- The place of the first occurrence of a pattern in a text: `text.indexOf(pat)`. -/
def indexOf (pat : Str) : Str → Option Nat
  | [] => if pat.isEmpty then some 0 else none
  | c :: cs => if startsWith (c :: cs) pat then some 0 else (indexOf pat cs).map (fun i => i + 1)

/-- The date parser in the scenario: it knows one expression, `tomorrow at 3pm`,
matches its first occurrence and reads it as 2024-01-02T15:00:00 local time,
which `tza` milliseconds ahead of UTC is the instant below. -/
def scenarioChrono (tza : Int) : Str → List ParsedResult :=
  fun text =>
    match indexOf "tomorrow at 3pm".toList text with
    | none => []
    | some i => [{ index := i, text := "tomorrow at 3pm".toList, start := 1704207600000 - tza }]

/-- The surroundings of the scenario, in a process `tza` milliseconds ahead of
UTC; the bot has no `username` option and the text generator is down. -/
def scenarioEnv (tza : Int) : Env where
  chrono := scenarioChrono tza
  localTZA := fun _ => tza
  now := scenarioNow
  generateContent := fun _ => .error (.error "unavailable".toList)
  botUsername := "undefined".toList

/-- The message of the scenario, from user 7 in chat 42. -/
def scenarioMsg : Msg :=
  { chatId := 42, fromId := 7, username := some "alex".toList, text := scenarioText }

/-- A command message from user 7 in chat 42. -/
def commandMsg (text : String) : Msg :=
  { chatId := 42, fromId := 7, username := some "alex".toList, text := text.toList }

/-- A callback query on prompt 5 of chat 42. -/
def acceptQuery (data : Str) : CallbackQuery :=
  { id := "q1".toList, data := data, chatId := 42, messageId := 5 }

/-- The row `addEvent` inserts. -/
def newEvent (id : Nat) (date time description : Str) : Event :=
  { id := id, date := date, time := time, description := description, participants := none,
    message_link := none, status := "confirmed".toList }

/-! ## Lemmas on strings and tables -/

/-- A split has at least one piece. -/
theorem splitAux_ne_nil (sep : Char) (s cur : Str) : splitAux sep cur s ≠ [] := by
  induction s generalizing cur with
  | nil => simp [splitAux]
  | cons c cs ih =>
    unfold splitAux
    split
    · simp
    · exact ih _

/-- Splitting a text that starts with a piece free of the separator, then the
separator. -/
theorem splitAux_append (sep : Char) (a : Str) (h : sep ∉ a) (cur rest : Str) :
    splitAux sep cur (a ++ sep :: rest) = (cur ++ a) :: splitAux sep [] rest := by
  induction a generalizing cur with
  | nil => simp [splitAux]
  | cons c cs ih =>
    have hc : c ≠ sep := fun e => h (by simp [e])
    have hcs : sep ∉ cs := fun e => h (by simp [e])
    show splitAux sep cur (c :: (cs ++ sep :: rest)) = _
    rw [splitAux, if_neg hc, ih hcs]
    simp

/-- Joining a piece and at least one more. -/
theorem join_cons (sep p : Str) (ps : List Str) (h : ps ≠ []) :
    join sep (p :: ps) = p ++ sep ++ join sep ps := by
  cases ps with
  | nil => exact absurd rfl h
  | cons q qs => rfl

/-- Joining the pieces of a split with the separator gives the text back. -/
theorem join_splitAux (sep : Char) (s cur : Str) : join [sep] (splitAux sep cur s) = cur ++ s := by
  induction s generalizing cur with
  | nil => simp [splitAux, join]
  | cons c cs ih =>
    unfold splitAux
    split
    · rename_i h
      rw [join_cons _ _ _ (splitAux_ne_nil _ _ _), ih, h]
      simp
    · rw [ih]; simp

/-- Decoding the payload of a proposal whose time is `hh:mm` gives the time
`hh` and a description that starts with `mm:`, whatever the proposal. -/
theorem decode_acceptPayload (date hh mm description : Str) (hd : ':' ∉ date) (hh1 : ':' ∉ hh) :
    let parts := split ':' (acceptPayload date (hh ++ ':' :: mm) description)
    parts.get? 1 = some date ∧ parts.get? 2 = some hh ∧
      join [':'] (parts.drop 3) = mm ++ ':' :: description := by
  have h0 : ':' ∉ "add_event".toList := by decide
  have e : acceptPayload date (hh ++ ':' :: mm) description =
      "add_event".toList ++ ':' :: (date ++ ':' :: (hh ++ ':' :: (mm ++ ':' :: description))) := by
    simp [acceptPayload]
  simp only [split, e]
  rw [splitAux_append _ _ h0, splitAux_append _ _ hd, splitAux_append _ _ hh1]
  simp [join_splitAux]

/-- The meaning of `startsWith`. -/
theorem startsWith_iff (s p : Str) : startsWith s p = true ↔ ∃ r, s = p ++ r := by
  simp only [startsWith, List.isPrefixOf_iff_prefix]
  constructor
  · rintro ⟨r, rfl⟩; exact ⟨r, rfl⟩
  · rintro ⟨r, rfl⟩; exact ⟨r, rfl⟩

/-- The first piece of an accept payload is `add_event`. -/
theorem split_accept (rest : Str) :
    split ':' ("add_event:".toList ++ rest) = "add_event".toList :: split ':' rest := by
  have h0 : ':' ∉ "add_event".toList := by decide
  have e : "add_event:".toList ++ rest = "add_event".toList ++ ':' :: rest := by
    simp
  rw [e, split, splitAux_append _ _ h0]
  rfl

/-- The largest id after a row is appended. -/
theorem maxEventId_append (es : List Event) (e : Event) :
    maxEventId (es ++ [e]) = max (maxEventId es) e.id := by
  induction es with
  | nil => simp [maxEventId]
  | cons x xs ih => simp [maxEventId, ih, max_assoc]

/-- An accept payload is not the payload of `No`. -/
theorem accept_ne_ignore (data : Str) (h : startsWith data "add_event:".toList = true) :
    data ≠ "ignore".toList := by
  intro e
  rw [e] at h
  revert h
  decide

/-- One delivery of an accept callback leaves the database as `addEvent` on the
decoded fields leaves it, whether it succeeds or throws. -/
theorem onCallbackQuery_accept (now : Int) (q : CallbackQuery) (w : World Store)
    (h : startsWith q.data "add_event:".toList = true) :
    (onCallbackQuery (sqlite now) q w).2.db =
      (Store.addEvent ((split ':' q.data).get? 1) ((split ':' q.data).get? 2)
        (some (join [':'] ((split ':' q.data).drop 3))) none none w.db).2 := by
  have hne := accept_ne_ignore q.data h
  simp only [onCallbackQuery, tryCatch, if_neg hne, h, if_true, onDb, sqlite]
  generalize Store.addEvent _ _ _ none none w.db = r
  rcases r with ⟨_ | _, s⟩ <;> simp [call]

/-- An accept payload always has a field after `add_event:`: the date is never
`undefined`. -/
theorem accept_date_some (data : Str) (h : startsWith data "add_event:".toList = true) :
    ∃ date, (split ':' data).get? 1 = some date := by
  obtain ⟨r, rfl⟩ := (startsWith_iff _ _).1 h
  rw [split_accept]
  have := splitAux_ne_nil ':' r []
  unfold split
  cases hs : splitAux ':' [] r with
  | nil => exact absurd hs this
  | cons a as => exact ⟨a, rfl⟩

/-- A text starts with its own beginning. -/
theorem startsWith_append_self (m post : Str) : startsWith (m ++ post) m = true := by
  simp [startsWith]

/-- Removing by `replace` a pattern whose first occurrence starts after `pre`. -/
theorem replace_first_occurrence (m post : Str) (pre : Str)
    (h : ∀ k, k < pre.length → startsWith ((pre ++ m ++ post).drop k) m = false) :
    replace m [] (pre ++ m ++ post) = pre ++ post := by
  induction pre with
  | nil =>
    cases hm : m ++ post with
    | nil =>
      have h1 : m = [] := (List.append_eq_nil.1 hm).1
      have h2 : post = [] := (List.append_eq_nil.1 hm).2
      simp [h1, h2, replace]
    | cons c cs =>
      simp only [List.nil_append, hm, replace]
      rw [← hm, startsWith_append_self]
      simp
  | cons p ps ih =>
    have h0 := h 0 (by simp)
    simp only [List.drop_zero, List.cons_append] at h0
    have := ih (fun k hk => by
      have := h (k + 1) (by simpa using hk)
      simpa using this)
    show replace m [] (p :: (ps ++ m ++ post)) = p :: (ps ++ post)
    rw [replace, h0, this]
    simp

/-- What `parseDateTime` returns when the parser finds something: the fields
come from the first match. -/
theorem parseDateTime_first (chrono : Str → List ParsedResult) (tz : Int → Int) (text : Str)
    (first : ParsedResult) (rest : List ParsedResult) (h : chrono text = first :: rest) :
    parseDateTime chrono tz text =
      .ok { date := (split 'T' (toISOString first.start)).headD []
            time := timeString (getHours tz first.start) (getMinutes tz first.start)
            description := strOr (trim (replace first.text [] text)) noDescription } := by
  simp [parseDateTime, h]

/-- A `try` whose `catch` block returns, returns. -/
theorem tryCatch_ok {σ : Type} (body : Task σ Unit) (f : JsError → World σ → World σ)
    (w : World σ) : (tryCatch body (fun e w1 => (.ok (), f e w1)) w).1 = .ok () := by
  unfold tryCatch
  rcases h : body w with ⟨_ | _, w1⟩ <;> simp

/-- The command router returns normally exactly when the verb is not one of the
two whose handler is missing, whatever the database and the text generator do. -/
theorem handleCommand_ok_iff {σ : Type} (db : Db σ) (env : Env) (msg : Msg) (w : World σ) :
    (handleCommand db env msg w).1 = .ok () ↔
      ¬ (commandOf msg = "/remind".toList ∨ commandOf msg = "/напомнить".toList) := by
  unfold handleCommand
  simp only
  by_cases h1 : commandOf msg = "/add".toList ∨ commandOf msg = "/добавить".toList
  · rw [if_pos h1]
    have : ¬ (commandOf msg = "/remind".toList ∨ commandOf msg = "/напомнить".toList) := by
      rcases h1 with h | h <;> rw [h] <;> decide
    simp only [this, not_false_eq_true, iff_true]
    exact tryCatch_ok _ _ w
  rw [if_neg h1]
  by_cases h2 : commandOf msg = "/delete".toList ∨ commandOf msg = "/удалить".toList
  · rw [if_pos h2]
    have : ¬ (commandOf msg = "/remind".toList ∨ commandOf msg = "/напомнить".toList) := by
      rcases h2 with h | h <;> rw [h] <;> decide
    simp only [this, not_false_eq_true, iff_true]
    exact tryCatch_ok _ _ w
  rw [if_neg h2]
  by_cases h3 : commandOf msg = "/show".toList ∨ commandOf msg = "/показать".toList
  · rw [if_pos h3]
    have : ¬ (commandOf msg = "/remind".toList ∨ commandOf msg = "/напомнить".toList) := by
      rcases h3 with h | h <;> rw [h] <;> decide
    simp only [this, not_false_eq_true, iff_true]
    exact tryCatch_ok _ _ w
  rw [if_neg h3]
  by_cases h4 : commandOf msg = "/remind".toList ∨ commandOf msg = "/напомнить".toList
  · rw [if_pos h4]
    constructor
    · intro h; cases h
    · intro h; exact absurd h4 h
  rw [if_neg h4]
  simp only [h4, not_false_eq_true, iff_true]
  by_cases h5 : commandOf msg = "/summarize".toList ∨ commandOf msg = "/пересказать".toList
  · rw [if_pos h5]
    exact tryCatch_ok _ _ w
  · rw [if_neg h5]

/-- The order of texts is total. -/
theorem strLe_total (a b : Str) : strLe a b = true ∨ strLe b a = true := by
  induction a generalizing b with
  | nil => left; simp [strLe]
  | cons x xs ih =>
    cases b with
    | nil => right; simp [strLe]
    | cons y ys =>
      simp only [strLe]
      by_cases h1 : x.toNat < y.toNat
      · left; simp [h1]
      · by_cases h2 : y.toNat < x.toNat
        · right; simp [h2]
        · simp only [h1, h2, if_false]
          exact ih ys

/-- The order of texts is transitive. -/
theorem strLe_trans (a b c : Str) (h1 : strLe a b = true) (h2 : strLe b c = true) :
    strLe a c = true := by
  induction a generalizing b c with
  | nil => simp [strLe]
  | cons x xs ih =>
    cases b with
    | nil => simp [strLe] at h1
    | cons y ys =>
      cases c with
      | nil => simp [strLe] at h2
      | cons z zs =>
        simp only [strLe] at h1 h2 ⊢
        by_cases hxz : x.toNat < z.toNat
        · simp [hxz]
        · simp only [hxz, if_false]
          by_cases hxy : x.toNat < y.toNat
          · by_cases hyz : y.toNat < z.toNat
            · omega
            · simp only [hyz, if_false] at h2
              by_cases hzy : z.toNat < y.toNat
              · simp [hzy] at h2
              · omega
          · simp only [hxy, if_false] at h1
            by_cases hyx : y.toNat < x.toNat
            · simp [hyx] at h1
            · simp only [hyx, if_false] at h1
              by_cases hyz : y.toNat < z.toNat
              · omega
              · simp only [hyz, if_false] at h2
                by_cases hzy : z.toNat < y.toNat
                · simp [hzy] at h2
                · simp only [hzy, if_false] at h2
                  have : ¬ z.toNat < x.toNat := by omega
                  simp only [this, if_false]
                  exact ih ys zs h1 h2

/-- Comparing two texts that start with pieces of the same length. -/
theorem strLe_append (u v r1 r2 : Str) (h : u.length = v.length) :
    strLe (u ++ r1) (v ++ r2) = if u = v then strLe r1 r2 else strLe u v := by
  induction u generalizing v with
  | nil =>
    cases v with
    | nil => simp
    | cons y ys => simp at h
  | cons x xs ih =>
    cases v with
    | nil => simp at h
    | cons y ys =>
      have hl : xs.length = ys.length := by simpa using h
      simp only [List.cons_append, strLe, List.cons.injEq]
      by_cases h1 : x.toNat < y.toNat
      · have : x ≠ y := fun e => by rw [e] at h1; omega
        simp [h1, this]
      · by_cases h2 : y.toNat < x.toNat
        · have : x ≠ y := fun e => by rw [e] at h2; omega
          simp [h1, h2, this]
        · have hn : x.toNat = y.toNat := by omega
          have e : x = y := by
            have := congrArg Char.ofNat hn
            simpa [Char.ofNat_toNat] using this
          subst e
          simp only [h1, if_false, true_and]
          exact ih ys hl

set_option maxRecDepth 100000 in
/-- Two-digit numbers below 60 compare as their padded texts do. -/
theorem pad2_le : ∀ a, a < 60 → ∀ b, b < 60 → strLe (pad2 a) (pad2 b) = decide (a ≤ b) := by
  decide

/-- Every id of a row is at most the largest id. -/
theorem le_maxEventId (es : List Event) (e : Event) (h : e ∈ es) : e.id ≤ maxEventId es := by
  induction es with
  | nil => cases h
  | cons x xs ih =>
    simp only [maxEventId]
    rcases List.mem_cons.1 h with h | h
    · subst h; exact le_max_left _ _
    · exact le_trans (ih h) (le_max_right _ _)

/-- An id at most the counter stays at most the counter. -/
theorem run_seq_le (op : StoreOp) (s : Store) (id : Nat) (h : id ≤ s.eventSeq) :
    id ≤ (op.run s).eventSeq := by
  cases op with
  | addEvent date time description participants messageLink =>
    rcases date with _ | d <;> rcases time with _ | t <;> rcases description with _ | c <;>
      simp only [StoreOp.run, Store.addEvent] <;> first | exact h | omega
  | deleteEvent i => exact h
  | addMessage now chatId userId username messageText =>
    rcases messageText with _ | m <;> simp only [StoreOp.run, Store.addMessage] <;> exact h

/-- An id at most the counter stays at most the counter through any operations. -/
theorem runOps_seq_le (ops : List StoreOp) (s : Store) (id : Nat) (h : id ≤ s.eventSeq) :
    id ≤ (runOps ops s).eventSeq := by
  induction ops generalizing s with
  | nil => exact h
  | cons op ops ih => exact ih _ (run_seq_le op s id h)

/-- An id at most the counter and in no row is in no row after an operation. -/
theorem run_absent (op : StoreOp) (s : Store) (id : Nat) (h : id ≤ s.eventSeq)
    (ha : ∀ e ∈ s.events, e.id ≠ id) : ∀ e ∈ (op.run s).events, e.id ≠ id := by
  cases op with
  | addEvent date time description participants messageLink =>
    rcases date with _ | d <;> rcases time with _ | t <;> rcases description with _ | c <;>
      simp only [StoreOp.run, Store.addEvent] <;> try exact ha
    intro e he
    rcases List.mem_append.1 he with he | he
    · exact ha e he
    · simp only [List.mem_singleton] at he
      subst he
      simp only
      omega
  | deleteEvent i =>
    intro e he
    simp only [StoreOp.run, Store.deleteEvent] at he
    exact ha e (List.mem_filter.1 he).1
  | addMessage now chatId userId username messageText =>
    rcases messageText with _ | m <;> simp only [StoreOp.run, Store.addMessage] <;> exact ha

/-- An id at most the counter and in no row is in no row after any operations:
ids are not reused. -/
theorem runOps_absent (ops : List StoreOp) (s : Store) (id : Nat) (h : id ≤ s.eventSeq)
    (ha : ∀ e ∈ s.events, e.id ≠ id) : ∀ e ∈ (runOps ops s).events, e.id ≠ id := by
  induction ops generalizing s with
  | nil => exact ha
  | cons op ops ih => exact ih _ (run_seq_le op s id h) (run_absent op s id h ha)

/-- The rows `getEvents` returns are the rows of the date, in some order that is
sorted by time; it always returns. -/
theorem getEvents_rows (d : Str) (s : Store) :
    ∃ rows, Store.getEvents d s = (.ok rows, s) ∧
      rows.Perm (s.events.filter (fun e => decide (e.date = d))) ∧
      rows.Sorted (fun a b : Event => strLe a.time b.time = true) := by
  refine ⟨_, rfl, List.perm_insertionSort _ _, ?_⟩
  exact @List.sorted_insertionSort _ (fun a b : Event => strLe a.time b.time = true) _
    ⟨fun a b => strLe_total a.time b.time⟩ ⟨fun a b c => strLe_trans a.time b.time c.time⟩ _

/-- Deleting an id that no row has changes nothing. -/
theorem deleteEvent_absent (id : JsNum) (s : Store)
    (h : ∀ e ∈ s.events, JsNum.int (e.id : Int) ≠ id) : Store.deleteEvent id s = (.ok (), s) := by
  have : s.events.filter (fun e => !decide (JsNum.int (e.id : Int) = id)) = s.events := by
    apply List.filter_eq_self.2
    intro e he
    simp [h e he]
  simp only [Store.deleteEvent, this]

/-- Numbers below 60 pad to two characters. -/
theorem pad2_length : ∀ a, a < 60 → (pad2 a).length = 2 := by decide

/-- The order of two `HH:MM` texts is the order of their minutes of the day. -/
theorem timeString_le (h1 m1 h2 m2 : Nat) (a1 : h1 < 24) (b1 : m1 < 60) (a2 : h2 < 24)
    (b2 : m2 < 60) :
    strLe (timeString h1 m1) (timeString h2 m2) = true ↔ h1 * 60 + m1 ≤ h2 * 60 + m2 := by
  have e1 : timeString h1 m1 = pad2 h1 ++ (':' :: pad2 m1) := by simp [timeString]
  have e2 : timeString h2 m2 = pad2 h2 ++ (':' :: pad2 m2) := by simp [timeString]
  have hl : (pad2 h1).length = (pad2 h2).length := by
    rw [pad2_length h1 (by omega), pad2_length h2 (by omega)]
  have hh := pad2_le h1 (by omega) h2 (by omega)
  have hh' := pad2_le h2 (by omega) h1 (by omega)
  have hm := pad2_le m1 b1 m2 b2
  rw [e1, e2, strLe_append _ _ _ _ hl]
  by_cases he : pad2 h1 = pad2 h2
  · have h12 : h1 = h2 := by
      rw [he] at hh
      rw [← he] at hh'
      have r : strLe (pad2 h1) (pad2 h1) = true := by
        rcases strLe_total (pad2 h1) (pad2 h1) with h | h <;> exact h
      rw [he] at r
      rw [r] at hh
      rw [he] at hh'
      rw [r] at hh'
      have := of_decide_eq_true hh.symm
      have := of_decide_eq_true hh'.symm
      omega
    rw [if_pos he]
    simp only [strLe, lt_self_iff_false, if_false, hm, decide_eq_true_eq]
    omega
  · rw [if_neg he, hh]
    have hne : h1 ≠ h2 := fun e => he (by rw [e])
    simp only [decide_eq_true_eq]
    omega

/-- Whatever the argument, when `parseInt` gives `NaN` the delete handler runs
`deleteEvent(NaN)`, which leaves the store as it was, and reports a deletion. -/
theorem handleDeleteEvent_nan (now : Int) (chatId : ChatArg) (args : Str) (w : World Store)
    (h : parseInt args = .nan) :
    (handleDeleteEvent (sqlite now) chatId args w).2.db = w.db ∧
    (handleDeleteEvent (sqlite now) chatId args w).2.calls =
      w.calls ++ [.sendMessage chatId "Event NaN has been deleted.".toList []] := by
  have e : Store.deleteEvent .nan w.db = (.ok (), w.db) :=
    deleteEvent_absent .nan w.db (fun _ _ hne => by cases hne)
  simp [handleDeleteEvent, tryCatch, onDb, sqlite, h, e, sendMessage, call, JsNum.toStr]

/-- What `trimStart` does: it removes a run of white space, and what is left does
not start with white space. -/
theorem trimStart_spec (s : Str) :
    ∃ l, s = l ++ trimStart s ∧ (∀ c ∈ l, isWhiteSpace c = true) ∧
      ∀ c, (trimStart s).head? = some c → isWhiteSpace c = false := by
  induction s with
  | nil => exact ⟨[], rfl, by simp, by simp [trimStart]⟩
  | cons x xs ih =>
    obtain ⟨l, h1, h2, h3⟩ := ih
    by_cases hx : isWhiteSpace x = true
    · refine ⟨x :: l, ?_, ?_, ?_⟩
      · simp only [trimStart, hx, if_true, List.cons_append]
        rw [← h1]
      · intro c hc
        rcases List.mem_cons.1 hc with h | h
        · rw [h]; exact hx
        · exact h2 c h
      · simpa only [trimStart, hx, if_true] using h3
    · refine ⟨[], ?_, by simp, ?_⟩
      · simp [trimStart, hx]
      · intro c hc
        simp only [trimStart, hx] at hc
        simp at hc
        rw [← hc]
        simpa using hx

/-- What `trim` does: it removes a run of white space at each end, and what is
left neither starts nor ends with white space. -/
theorem trim_spec (s : Str) :
    ∃ l r, s = l ++ trim s ++ r ∧ (∀ c ∈ l, isWhiteSpace c = true) ∧
      (∀ c ∈ r, isWhiteSpace c = true) ∧
      (∀ c, (trim s).head? = some c → isWhiteSpace c = false) ∧
      (∀ c, (trim s).getLast? = some c → isWhiteSpace c = false) := by
  obtain ⟨l, h1, h2, h3⟩ := trimStart_spec s
  obtain ⟨l', g1, g2, g3⟩ := trimStart_spec (trimStart s).reverse
  have ha : trimStart s = trim s ++ l'.reverse := by
    have := congrArg List.reverse g1
    simpa [trim] using this
  refine ⟨l, l'.reverse, ?_, h2, ?_, ?_, ?_⟩
  · rw [List.append_assoc, ← ha]; exact h1
  · intro c hc
    exact g2 c (List.mem_reverse.1 hc)
  · intro c hc
    apply h3
    rw [ha]
    cases ht : trim s with
    | nil => rw [ht] at hc; simp at hc
    | cons y ys => rw [ht] at hc; simpa using hc
  · intro c hc
    apply g3
    simpa [trim] using hc

/-- The first piece of a split is the text up to the first separator. -/
theorem headD_splitAux (sep : Char) (s cur : Str) :
    (splitAux sep cur s).headD [] = cur ++ s.takeWhile (fun c => c ≠ sep) := by
  induction s generalizing cur with
  | nil => simp [splitAux]
  | cons c cs ih =>
    unfold splitAux
    by_cases h : c = sep
    · simp [h]
    · rw [if_neg h, ih]
      simp [List.takeWhile_cons, h]

/-- A decimal digit is not the letter `T`. -/
theorem digitChar_ne_T : ∀ m, m < 10 → Nat.digitChar m ≠ 'T' := by decide

/-- The digits of a number, added to digits already there, are not empty. -/
theorem toDigitsCore_ne_nil (fuel n : Nat) (ds : List Char) (h : ds ≠ []) :
    Nat.toDigitsCore 10 fuel n ds ≠ [] := by
  induction fuel generalizing n ds with
  | zero => simpa [Nat.toDigitsCore] using h
  | succ f ih =>
    simp only [Nat.toDigitsCore]
    split
    · simp
    · exact ih _ _ (by simp)

/-- No digit of a number is the letter `T`. -/
theorem toDigitsCore_ne_T (fuel n : Nat) (ds : List Char) (h : ∀ c ∈ ds, c ≠ 'T') :
    ∀ c ∈ Nat.toDigitsCore 10 fuel n ds, c ≠ 'T' := by
  induction fuel generalizing n ds with
  | zero => simpa [Nat.toDigitsCore] using h
  | succ f ih =>
    have hd : ∀ c ∈ Nat.digitChar (n % 10) :: ds, c ≠ 'T' := by
      intro c hc
      rcases List.mem_cons.1 hc with e | e
      · rw [e]; exact digitChar_ne_T _ (Nat.mod_lt _ (by decide))
      · exact h c e
    simp only [Nat.toDigitsCore]
    split
    · exact hd
    · exact ih _ _ hd

/-- A number has at least one digit. -/
theorem repr_ne_nil (n : Nat) : (Nat.repr n).toList ≠ [] := by
  show Nat.toDigitsCore 10 (n + 1) n [] ≠ []
  simp only [Nat.toDigitsCore]
  split
  · simp
  · exact toDigitsCore_ne_nil _ _ _ (by simp)

/-- No digit of a number is the letter `T`. -/
theorem repr_ne_T (n : Nat) : ∀ c ∈ (Nat.repr n).toList, c ≠ 'T' :=
  toDigitsCore_ne_T (n + 1) n [] (by simp)

/-- A padded number starts with a character that is not `T`. -/
theorem padNat_head (k n : Nat) : ∃ c rest, padNat k n = c :: rest ∧ c ≠ 'T' := by
  have h1 : padNat k n ≠ [] := by
    simp only [padNat]
    intro e
    exact repr_ne_nil n (List.append_eq_nil.1 e).2
  have h2 : ∀ c ∈ padNat k n, c ≠ 'T' := by
    intro c hc
    simp only [padNat] at hc
    rcases List.mem_append.1 hc with e | e
    · rw [(List.mem_replicate.1 e).2]; decide
    · exact repr_ne_T n c e
  cases hp : padNat k n with
  | nil => exact absurd hp h1
  | cons c rest => exact ⟨c, rest, rfl, h2 c (by rw [hp]; simp)⟩

/-- The year of an ISO string starts with a character that is not `T`. -/
theorem isoYear_head (y : Int) : ∃ c rest, isoYear y = c :: rest ∧ c ≠ 'T' := by
  unfold isoYear
  split
  · exact padNat_head 4 y.toNat
  · split
    · exact ⟨'-', padNat 6 y.natAbs, rfl, by decide⟩
    · exact ⟨'+', padNat 6 y.natAbs, rfl, by decide⟩

/-- An ISO string starts with a character that is not `T`. -/
theorem toISOString_head (t : Int) : ∃ c rest, toISOString t = c :: rest ∧ c ≠ 'T' := by
  obtain ⟨c, rest, h, hc⟩ := isoYear_head (civilFromDays (Day t)).1
  simp only [toISOString, h, List.cons_append]
  exact ⟨c, _, rfl, hc⟩

/-- The date part of an ISO string is not empty. -/
theorem isoDate_ne_nil (t : Int) : (split 'T' (toISOString t)).headD [] ≠ [] := by
  obtain ⟨c, rest1, e, hne⟩ := toISOString_head t
  rw [split, headD_splitAux, e]
  simp [List.takeWhile_cons, hne]

/-- A time string is not empty. -/
theorem timeString_ne_nil (h m : Nat) : timeString h m ≠ [] := by
  simp [timeString]

/-- The date and the time `parseDateTime` returns are never empty. -/
theorem parseDateTime_nonempty (chrono : Str → List ParsedResult) (tz : Int → Int) (text : Str)
    (r : DateTime) (h : parseDateTime chrono tz text = .ok r) : r.date ≠ [] ∧ r.time ≠ [] := by
  cases hc : chrono text with
  | nil =>
    unfold parseDateTime at h
    rw [hc] at h
    cases h
  | cons first rest =>
    have e := parseDateTime_first chrono tz text first rest hc
    have hr := Except.ok.inj (e.symm.trans h)
    have hd : r.date = (split 'T' (toISOString first.start)).headD [] := by rw [← hr]
    have ht : r.time = timeString (getHours tz first.start) (getMinutes tz first.start) := by
      rw [← hr]
    rw [hd, ht]
    exact ⟨isoDate_ne_nil first.start, timeString_ne_nil _ _⟩

/-- When a text that also occurs earlier is matched, `replace` removes the
earlier occurrence: for `room3pm, 3pm` with the match `3pm` at index 9 the
description is `room, 3pm`, which still holds the matched time. -/
theorem replace_removes_earlier_occurrence :
    parseDateTime (fun _ => [{ index := 9, text := "3pm".toList, start := 1704121200000 }])
        (fun _ => 0) "room3pm, 3pm".toList =
      .ok { date := "2024-01-01".toList, time := "15:00".toList,
            description := "room, 3pm".toList } := by
  decide

/-- One delivery of an accept callback whose payload has no time field: the
insert throws, the handler catches it and answers `An error occurred`. -/
theorem onCallbackQuery_no_time (now : Int) (q : CallbackQuery) (w : World Store)
    (h : startsWith q.data "add_event:".toList = true) (ht : (split ':' q.data).get? 2 = none) :
    onCallbackQuery (sqlite now) q w =
      (.ok (), { db := w.db,
                 calls := w.calls ++
                   [.answerCallbackQuery q.id (some "An error occurred".toList)] }) := by
  have hne := accept_ne_ignore q.data h
  obtain ⟨date, hd⟩ := accept_date_some q.data h
  simp only [onCallbackQuery, tryCatch, if_neg hne, h, if_true, onDb, sqlite, ht, hd,
    Store.addEvent, call]

/-- Every row the `/add` handler adds has a date and a time that are not empty. -/
theorem handleAddEvent_rows (now : Int) (env : Env) (chatId : ChatArg) (args : Str)
    (w : World Store) (e : Event)
    (he : e ∈ (handleAddEvent (sqlite now) env chatId args w).2.db.events) :
    e ∈ w.db.events ∨ (e.date ≠ [] ∧ e.time ≠ []) := by
  cases hp : parseDateTime env.chrono env.localTZA args with
  | error err =>
    left
    simpa [handleAddEvent, tryCatch, hp, sendMessage, call] using he
  | ok r =>
    have hr := parseDateTime_nonempty _ _ _ _ hp
    simp only [handleAddEvent, tryCatch, hp, onDb, sqlite, Store.addEvent, sendMessage, call,
      List.mem_append, List.mem_singleton] at he
    rcases he with he | he
    · exact Or.inl he
    · right
      rw [he]
      exact hr

/-- An id above 2^53 is rounded to the nearest double before it is used:
`/delete 9007199254740993` deletes and reports the id 9007199254740992. -/
theorem delete_rounds_large_id :
    parseInt "9007199254740993".toList = .int 9007199254740992 ∧
    (handleCommand recorder (scenarioEnv 0) (commandMsg "/delete 9007199254740993")
        ⟨[], []⟩).2.calls =
      [.sendMessage (.message (commandMsg "/delete 9007199254740993"))
        "Event 9007199254740992 has been deleted.".toList []] := by
  refine ⟨?_, ?_⟩ <;> decide

/-! ## The claims -/

/-- C1 (fails on the code): the proposal for the scenario carries date
2024-01-02, time 15:00 and its description in the payload of `Yes`, and
accepting it calls `addEvent` with the time `15` and the description
`00:Add meeting  with Alex`: `split(':')` cuts the time at its own colon. -/
theorem accept_cuts_time_at_colon :
    (handleMessage recorder (scenarioEnv 0) scenarioMsg ⟨[], []⟩).2.calls =
        [proposal 42 "2024-01-02".toList "15:00".toList "Add meeting  with Alex".toList] ∧
    (onCallbackQuery recorder
        (acceptQuery (acceptPayload "2024-01-02".toList "15:00".toList
          "Add meeting  with Alex".toList)) ⟨[], []⟩).2.db =
        [.addEvent (some "2024-01-02".toList) (some "15".toList)
          (some "00:Add meeting  with Alex".toList)] ∧
    (onCallbackQuery (sqlite scenarioNow)
        (acceptQuery (acceptPayload "2024-01-02".toList "15:00".toList
          "Add meeting  with Alex".toList)) ⟨Store.empty, []⟩).2.db.events =
        [newEvent 1 "2024-01-02".toList "15".toList "00:Add meeting  with Alex".toList] := by
  refine ⟨?_, ?_, ?_⟩ <;> decide

/-- C2 (counterexample): in the scenario of the specification the description
is not `Add meeting with Alex`: removing `tomorrow at 3pm` leaves the two
spaces that were around it. -/
theorem scenario_description_keeps_both_spaces :
    ¬ ∃ r, parseDateTime (scenarioChrono 0) (fun _ => 0) scenarioText = .ok r ∧
      r.description = "Add meeting with Alex".toList := by
  rintro ⟨r, h, hd⟩
  have e : parseDateTime (scenarioChrono 0) (fun _ => 0) scenarioText =
      .ok { date := "2024-01-02".toList, time := "15:00".toList,
            description := "Add meeting  with Alex".toList } := by decide
  rw [e] at h
  cases h
  revert hd
  decide

/-- C2 (amended): when the parser finds an expression and the matched text does
not occur in the text before the place where it was matched, the description
is the text before the match followed by the text after it, trimmed at both
ends, or the placeholder when that is empty; trimming removes white space at
the two ends only; in the scenario the description is
`Add meeting  with Alex`, with both spaces. -/
theorem parseDateTime_description :
    (∀ (chrono : Str → List ParsedResult) (tz : Int → Int) (text pre post : Str)
      (first : ParsedResult) (rest : List ParsedResult),
      chrono text = first :: rest → text = pre ++ first.text ++ post →
      pre.length = first.index →
      (∀ k, k < first.index → startsWith (text.drop k) first.text = false) →
      ∃ r, parseDateTime chrono tz text = .ok r ∧
        r.description = if trim (pre ++ post) = [] then noDescription else trim (pre ++ post)) ∧
    (∀ s : Str, ∃ l r, s = l ++ trim s ++ r ∧ (∀ c ∈ l, isWhiteSpace c = true) ∧
      (∀ c ∈ r, isWhiteSpace c = true) ∧
      (∀ c, (trim s).head? = some c → isWhiteSpace c = false) ∧
      (∀ c, (trim s).getLast? = some c → isWhiteSpace c = false)) ∧
    (∃ r, parseDateTime (scenarioChrono 0) (fun _ => 0) scenarioText = .ok r ∧
      r.description = "Add meeting  with Alex".toList) ∧
    (∃ r, parseDateTime (scenarioChrono 0) (fun _ => 0) "tomorrow at 3pm call Bob ".toList = .ok r ∧
      r.description = "call Bob".toList) ∧
    (∃ r, parseDateTime (scenarioChrono 0) (fun _ => 0) " tomorrow at 3pm".toList = .ok r ∧
      r.description = "No description provided".toList) := by
  refine ⟨?_, trim_spec, ⟨_, rfl, by decide⟩, ⟨_, rfl, by decide⟩, ⟨_, rfl, by decide⟩⟩
  intro chrono tz text pre post first rest hc ht hi hk
  refine ⟨_, parseDateTime_first chrono tz text first rest hc, ?_⟩
  subst ht
  rw [← hi] at hk
  rw [replace_first_occurrence _ _ _ hk]
  cases hx : trim (pre ++ post) <;> simp [strOr]

/-- C2 (witness): the scenario, with `Add meeting ` before the match at index 12
and ` with Alex` after it. -/
theorem parseDateTime_description_witness :
    ∃ r, parseDateTime (scenarioChrono 0) (fun _ => 0) scenarioText = .ok r ∧
      r.description =
        if trim ("Add meeting ".toList ++ " with Alex".toList) = [] then noDescription
        else trim ("Add meeting ".toList ++ " with Alex".toList) :=
  parseDateTime_description.1 (scenarioChrono 0) (fun _ => 0) scenarioText
    "Add meeting ".toList " with Alex".toList
    { index := 12, text := "tomorrow at 3pm".toList, start := 1704207600000 } [] (by decide)
    (by decide) (by decide) (by decide)

/-- C3 (fails on the code): the date is the UTC calendar date of the instant
and the time its local time of day. Ten hours behind UTC, the scenario's
`tomorrow at 3pm` (local 2024-01-02 15:00) gets the date 2024-01-03; three
hours ahead of UTC, local 2024-01-02 01:30 gets the date 2024-01-01. -/
theorem date_is_utc_time_is_local :
    parseDateTime (scenarioChrono (-36000000)) (fun _ => -36000000) scenarioText =
      .ok { date := "2024-01-03".toList, time := "15:00".toList,
            description := "Add meeting  with Alex".toList } ∧
    (split 'T' (toISOString (LocalTime (fun _ => -36000000) (1704207600000 + 36000000)))).headD []
      = "2024-01-02".toList ∧
    parseDateTime (fun _ => [{ index := 5, text := "tomorrow at 1:30am".toList, start := 1704148200000 }])
        (fun _ => 10800000) "Call tomorrow at 1:30am".toList =
      .ok { date := "2024-01-01".toList, time := "01:30".toList, description := "Call".toList } ∧
    toISOString (LocalTime (fun _ => 10800000) 1704148200000) =
      "2024-01-02T01:30:00.000Z".toList := by
  refine ⟨?_, ?_, ?_, ?_⟩ <;> decide

/-- C4 (counterexample): the same accept callback delivered twice to an empty
store leaves two rows, not one. -/
theorem double_accept_leaves_two_rows :
    (onCallbackQuery (sqlite scenarioNow) (acceptQuery "add_event:2024-01-02:15:00:x".toList)
      (onCallbackQuery (sqlite scenarioNow) (acceptQuery "add_event:2024-01-02:15:00:x".toList)
        ⟨Store.empty, []⟩).2).2.db.events =
      [newEvent 1 "2024-01-02".toList "15".toList "00:x".toList,
       newEvent 2 "2024-01-02".toList "15".toList "00:x".toList] := by
  decide

/-- C4 (amended): for every store and every accept payload that has a date and
a time field, delivering the same callback query twice appends two rows with
the decoded date, time and description under consecutive new ids; a payload
without a time field leaves the store as it was. -/
theorem double_accept_inserts_two_rows (now : Int) (q : CallbackQuery) (w : World Store)
    (h : startsWith q.data "add_event:".toList = true) :
    match (split ':' q.data).get? 1, (split ':' q.data).get? 2 with
    | some date, some time =>
      (onCallbackQuery (sqlite now) q (onCallbackQuery (sqlite now) q w).2).2.db.events =
        w.db.events ++
          [newEvent (max w.db.eventSeq (maxEventId w.db.events) + 1) date time
            (join [':'] ((split ':' q.data).drop 3)),
           newEvent (max w.db.eventSeq (maxEventId w.db.events) + 2) date time
            (join [':'] ((split ':' q.data).drop 3))]
    | _, _ =>
      (onCallbackQuery (sqlite now) q (onCallbackQuery (sqlite now) q w).2).2.db = w.db := by
  rw [onCallbackQuery_accept now q _ h, onCallbackQuery_accept now q w h]
  obtain ⟨date, hd⟩ := accept_date_some q.data h
  rw [hd]
  cases ht : (split ':' q.data).get? 2 with
  | none => simp [Store.addEvent]
  | some time =>
    simp only [Store.addEvent, newEvent, maxEventId_append]
    simp
    omega

/-- C4 (witness): the payload `add_event:2024-01-02:15:00:x` on the empty store. -/
theorem double_accept_inserts_two_rows_witness :
    match (split ':' (acceptQuery "add_event:2024-01-02:15:00:x".toList).data).get? 1,
      (split ':' (acceptQuery "add_event:2024-01-02:15:00:x".toList).data).get? 2 with
    | some date, some time =>
      (onCallbackQuery (sqlite scenarioNow) (acceptQuery "add_event:2024-01-02:15:00:x".toList)
        (onCallbackQuery (sqlite scenarioNow) (acceptQuery "add_event:2024-01-02:15:00:x".toList)
          (⟨Store.empty, []⟩ : World Store)).2).2.db.events =
        (⟨Store.empty, []⟩ : World Store).db.events ++
          [newEvent (max (⟨Store.empty, []⟩ : World Store).db.eventSeq
              (maxEventId (⟨Store.empty, []⟩ : World Store).db.events) + 1) date time
            (join [':'] ((split ':' (acceptQuery "add_event:2024-01-02:15:00:x".toList).data).drop 3)),
           newEvent (max (⟨Store.empty, []⟩ : World Store).db.eventSeq
              (maxEventId (⟨Store.empty, []⟩ : World Store).db.events) + 2) date time
            (join [':'] ((split ':' (acceptQuery "add_event:2024-01-02:15:00:x".toList).data).drop 3))]
    | _, _ =>
      (onCallbackQuery (sqlite scenarioNow) (acceptQuery "add_event:2024-01-02:15:00:x".toList)
        (onCallbackQuery (sqlite scenarioNow) (acceptQuery "add_event:2024-01-02:15:00:x".toList)
          (⟨Store.empty, []⟩ : World Store)).2).2.db = (⟨Store.empty, []⟩ : World Store).db :=
  double_accept_inserts_two_rows scenarioNow (acceptQuery "add_event:2024-01-02:15:00:x".toList)
    ⟨Store.empty, []⟩ (by decide)

/-- C5 (fails on the code): `/remind` and `/напомнить` make `handleCommand`
throw a `ReferenceError`, which only the caller in index.js catches; for every
database, surroundings and message, `handleCommand` returns normally exactly
when the verb is neither of the two. -/
theorem handleCommand_throws_on_remind :
    (handleCommand (sqlite scenarioNow) (scenarioEnv 0) (commandMsg "/remind 5")
        ⟨Store.empty, []⟩).1 = .error (.referenceError "handleSetReminder".toList) ∧
    (handleCommand (sqlite scenarioNow) (scenarioEnv 0) (commandMsg "/напомнить")
        ⟨Store.empty, []⟩).1 = .error (.referenceError "handleSetReminder".toList) ∧
    (onCommand (sqlite scenarioNow) (scenarioEnv 0) (commandMsg "/remind 5")
        ⟨Store.empty, []⟩).2.calls =
      [.sendMessage (.id 42) "Sorry, there was an error processing your command.".toList []] ∧
    (∀ (σ : Type) (db : Db σ) (env : Env) (msg : Msg) (w : World σ),
      (handleCommand db env msg w).1 = .ok () ↔
        ¬ (commandOf msg = "/remind".toList ∨ commandOf msg = "/напомнить".toList)) := by
  refine ⟨by decide, by decide, by decide, ?_⟩
  intro σ db env msg w
  exact handleCommand_ok_iff db env msg w

/-- C6 (counterexample): the accept payload `add_event:2024-01-02::x` persists an
event whose time is the empty string. -/
theorem accept_persists_empty_time :
    (onCallbackQuery (sqlite scenarioNow) (acceptQuery "add_event:2024-01-02::x".toList)
      ⟨Store.empty, []⟩).2.db.events = [newEvent 1 "2024-01-02".toList [] "x".toList] := by
  decide

/-- C6 (amended): `addEvent` throws the `NOT NULL` constraint error of the
missing column and leaves the store unchanged whenever the date or the time
is missing (`null` or `undefined`); an accept callback whose payload has no
time field therefore inserts nothing and is answered `An error occurred`; a
date and a time that are strings, empty or not, are inserted; and every row
the `/add` handler inserts has a date and a time that are not empty. -/
theorem addEvent_rejects_missing_date_or_time :
    (∀ (s : Store) (date time description participants messageLink : Option Str),
      date = none ∨ time = none →
      Store.addEvent date time description participants messageLink s =
        (.error (.sqliteConstraint
          (if date = none then "events.date".toList else "events.time".toList)), s)) ∧
    (∀ (now : Int) (q : CallbackQuery) (w : World Store),
      startsWith q.data "add_event:".toList = true → (split ':' q.data).get? 2 = none →
      onCallbackQuery (sqlite now) q w =
        (.ok (), { db := w.db,
                   calls := w.calls ++
                     [.answerCallbackQuery q.id (some "An error occurred".toList)] })) ∧
    (∀ (s : Store) (date time description : Str),
      Store.addEvent (some date) (some time) (some description) none none s =
        (.ok (max s.eventSeq (maxEventId s.events) + 1),
          { s with
            events := s.events ++
              [newEvent (max s.eventSeq (maxEventId s.events) + 1) date time description],
            eventSeq := max s.eventSeq (maxEventId s.events) + 1 })) ∧
    (∀ (now : Int) (env : Env) (chatId : ChatArg) (args : Str) (w : World Store) (e : Event),
      e ∈ (handleAddEvent (sqlite now) env chatId args w).2.db.events →
      e ∈ w.db.events ∨ (e.date ≠ [] ∧ e.time ≠ [])) := by
  refine ⟨?_, onCallbackQuery_no_time, ?_, handleAddEvent_rows⟩
  · intro s date time description participants messageLink h
    rcases date with _ | d
    · rfl
    · rcases time with _ | t
      · rfl
      · rcases h with h | h <;> cases h
  · intro s date time description
    rfl

/-- C6 (witness): a date without a time on the empty store, and the payload
`add_event:2024-01-02` that gives it. -/
theorem addEvent_rejects_missing_date_or_time_witness :
    Store.addEvent (some "2024-01-02".toList) none (some []) none none Store.empty =
      (.error (.sqliteConstraint
        (if (some "2024-01-02".toList : Option Str) = none then "events.date".toList
         else "events.time".toList)), Store.empty) ∧
    onCallbackQuery (sqlite scenarioNow) (acceptQuery "add_event:2024-01-02".toList)
        ⟨Store.empty, []⟩ =
      (.ok (), { db := Store.empty,
                 calls := [] ++ [.answerCallbackQuery (acceptQuery "add_event:2024-01-02".toList).id
                   (some "An error occurred".toList)] }) :=
  ⟨addEvent_rejects_missing_date_or_time.1 Store.empty (some "2024-01-02".toList) none (some [])
      none none (Or.inr rfl),
    addEvent_rejects_missing_date_or_time.2.1 scenarioNow
      (acceptQuery "add_event:2024-01-02".toList) ⟨Store.empty, []⟩ (by decide) (by decide)⟩

/-- C7: `parseDateTime` throws `No date/time found in text` exactly when the
parser finds no expression; when it finds some, `parseDateTime` returns the
date and the time of the instant of the first match and the text without the
text of the first match, which is what it returns when the first match is the
only one. -/
theorem parseDateTime_notFound_iff (chrono : Str → List ParsedResult) (tz : Int → Int)
    (text : Str) :
    (parseDateTime chrono tz text = .error (.error "No date/time found in text".toList) ↔
      chrono text = []) ∧
    (∀ first rest, chrono text = first :: rest →
      parseDateTime chrono tz text =
        .ok { date := (split 'T' (toISOString first.start)).headD []
              time := timeString (getHours tz first.start) (getMinutes tz first.start)
              description := strOr (trim (replace first.text [] text)) noDescription } ∧
      parseDateTime chrono tz text = parseDateTime (fun _ => [first]) tz text) := by
  constructor
  · cases h : chrono text with
    | nil => simp [parseDateTime, h]
    | cons a as => simp [parseDateTime, h]
  · intro first rest h
    exact ⟨parseDateTime_first chrono tz text first rest h,
      by rw [parseDateTime_first chrono tz text first rest h,
             parseDateTime_first (fun _ => [first]) tz text first [] rfl]⟩

/-- C7 (witness): a text with two matches, `tomorrow at 1:30am` and `Friday`. -/
theorem parseDateTime_notFound_iff_witness :
    parseDateTime
        (fun _ => [{ index := 5, text := "tomorrow at 1:30am".toList, start := 1704148200000 },
                   { index := 27, text := "Friday".toList, start := 1704412800000 }])
        (fun _ => 10800000) "Call tomorrow at 1:30am, or Friday".toList =
      .ok { date := (split 'T' (toISOString 1704148200000)).headD []
            time := timeString (getHours (fun _ => 10800000) 1704148200000)
              (getMinutes (fun _ => 10800000) 1704148200000)
            description := strOr (trim (replace "tomorrow at 1:30am".toList []
              "Call tomorrow at 1:30am, or Friday".toList)) noDescription } ∧
    parseDateTime
        (fun _ => [{ index := 5, text := "tomorrow at 1:30am".toList, start := 1704148200000 },
                   { index := 27, text := "Friday".toList, start := 1704412800000 }])
        (fun _ => 10800000) "Call tomorrow at 1:30am, or Friday".toList =
      parseDateTime
        (fun _ => [{ index := 5, text := "tomorrow at 1:30am".toList, start := 1704148200000 }])
        (fun _ => 10800000) "Call tomorrow at 1:30am, or Friday".toList :=
  (parseDateTime_notFound_iff
    (fun _ => [{ index := 5, text := "tomorrow at 1:30am".toList, start := 1704148200000 },
               { index := 27, text := "Friday".toList, start := 1704412800000 }])
    (fun _ => 10800000) "Call tomorrow at 1:30am, or Friday".toList).2
    { index := 5, text := "tomorrow at 1:30am".toList, start := 1704148200000 }
    [{ index := 27, text := "Friday".toList, start := 1704412800000 }] rfl

/-- C8 (fails on the code): for `/delete abc` and for `/delete` without an
argument, `handleDeleteEvent` calls `deleteEvent(NaN)` and reports
`Event NaN has been deleted.`; the store of database.js keeps all its rows. -/
theorem delete_nonnumeric_reports_deleted :
    (handleCommand recorder (scenarioEnv 0) (commandMsg "/delete abc") ⟨[], []⟩).2.db =
      [.deleteEvent .nan] ∧
    (handleCommand recorder (scenarioEnv 0) (commandMsg "/delete abc") ⟨[], []⟩).2.calls =
      [.sendMessage (.message (commandMsg "/delete abc")) "Event NaN has been deleted.".toList []] ∧
    (handleCommand recorder (scenarioEnv 0) (commandMsg "/delete") ⟨[], []⟩).2.db =
      [.deleteEvent .nan] ∧
    (handleCommand recorder (scenarioEnv 0) (commandMsg "/delete") ⟨[], []⟩).2.calls =
      [.sendMessage (.message (commandMsg "/delete")) "Event NaN has been deleted.".toList []] ∧
    (handleCommand (sqlite scenarioNow) (scenarioEnv 0) (commandMsg "/delete abc")
      ⟨(Store.addEvent (some "2024-01-02".toList) (some "15:00".toList) (some "Team sync".toList)
          none none Store.empty).2, []⟩).2.db.events =
      [newEvent 1 "2024-01-02".toList "15:00".toList "Team sync".toList] := by
  refine ⟨?_, ?_, ?_, ?_, ?_⟩ <;> decide

/-- C9: for every store, date, time and description, `addEvent` returns a new
id and appends one row to the rows that were there; `getEvents` of that date
then returns exactly the earlier rows of that date and the new row, sorted by
time; once `deleteEvent` of that id has run, whatever operations ran before
and run after it, no `getEvents` returns a row with that id; `deleteEvent`
returns, removes the rows of its id and no other, and leaves a store without
such a row as it was; and the order of two `HH:MM` times is the order of their
minutes of the day. -/
theorem addEvent_getEvents_deleteEvent (s : Store) (d t description : Str) :
    ∃ id s1, Store.addEvent (some d) (some t) (some description) none none s = (.ok id, s1) ∧
      (∀ e ∈ s.events, e.id ≠ id) ∧
      s1.events = s.events ++ [newEvent id d t description] ∧
      s1.messages = s.messages ∧
      (∃ rows, Store.getEvents d s1 = (.ok rows, s1) ∧
        (∀ e, e ∈ rows ↔ (e ∈ s.events ∧ e.date = d) ∨ e = newEvent id d t description) ∧
        rows.Perm (s1.events.filter (fun e => decide (e.date = d))) ∧
        rows.Sorted (fun a b : Event => strLe a.time b.time = true)) ∧
      (∀ (before after : List StoreOp) (d1 : Str),
        ∃ rows, Store.getEvents d1
            (runOps after (Store.deleteEvent (.int id) (runOps before s1)).2) =
            (.ok rows, runOps after (Store.deleteEvent (.int id) (runOps before s1)).2) ∧
          ∀ e ∈ rows, e.id ≠ id) ∧
      (∀ (s0 : Store) (i : JsNum),
        (Store.deleteEvent i s0).1 = .ok () ∧
        (∀ e, e ∈ (Store.deleteEvent i s0).2.events ↔ e ∈ s0.events ∧ JsNum.int (e.id : Int) ≠ i) ∧
        (Store.deleteEvent i s0).2.events.Sublist s0.events ∧
        (Store.deleteEvent i s0).2.messages = s0.messages ∧
        ((∀ e ∈ s0.events, JsNum.int (e.id : Int) ≠ i) →
          Store.deleteEvent i s0 = (.ok (), s0))) ∧
      (∀ h1 m1 h2 m2 : Nat, h1 < 24 → m1 < 60 → h2 < 24 → m2 < 60 →
        (strLe (timeString h1 m1) (timeString h2 m2) = true ↔ h1 * 60 + m1 ≤ h2 * 60 + m2)) := by
  refine ⟨_, _, rfl, ?_, rfl, rfl, ?_, ?_, ?_, timeString_le⟩
  · intro e he
    have := le_maxEventId _ _ he
    omega
  · obtain ⟨rows, hr, hp, hs⟩ := getEvents_rows d
      (Store.addEvent (some d) (some t) (some description) none none s).2
    refine ⟨rows, hr, ?_, hp, hs⟩
    intro e
    rw [hp.mem_iff, List.mem_filter]
    simp only [Store.addEvent, List.mem_append, List.mem_singleton, decide_eq_true_eq]
    constructor
    · rintro ⟨h | h, hd⟩
      · exact Or.inl ⟨h, hd⟩
      · exact Or.inr h
    · rintro (⟨h, hd⟩ | h)
      · exact ⟨Or.inl h, hd⟩
      · exact ⟨Or.inr h, by rw [h]; rfl⟩
  · intro before after d1
    obtain ⟨rows, hr, hp, _⟩ := getEvents_rows d1
      (runOps after (Store.deleteEvent (.int (max s.eventSeq (maxEventId s.events) + 1))
        (runOps before (Store.addEvent (some d) (some t) (some description) none none s).2)).2)
    refine ⟨rows, hr, ?_⟩
    intro e he
    have he1 := (List.mem_filter.1 (hp.mem_iff.1 he)).1
    refine runOps_absent after _ _ ?_ ?_ e he1
    · exact runOps_seq_le before _ _ (le_refl _)
    · intro x hx
      simp only [Store.deleteEvent] at hx
      have := (List.mem_filter.1 hx).2
      intro hxe
      simp [hxe] at this
  · intro s0 i
    refine ⟨rfl, ?_, ?_, rfl, deleteEvent_absent i s0⟩
    · intro e
      simp [Store.deleteEvent, List.mem_filter]
    · exact List.filter_sublist _

/-- C9 (witness): the scenario of the specification, `addEvent("2024-01-02",
"15:00", "Team sync")`, on a store that already has an event of that day; then
`deleteEvent` of an id in no row, and the times 09:05 and 15:00. -/
theorem addEvent_getEvents_deleteEvent_witness :
    ∃ id s1, Store.addEvent (some "2024-01-02".toList) (some "15:00".toList)
        (some "Team sync".toList) none none
        (Store.addEvent (some "2024-01-02".toList) (some "09:30".toList)
          (some "Standup".toList) none none Store.empty).2 = (.ok id, s1) ∧
      (∃ rows, Store.getEvents "2024-01-02".toList s1 = (.ok rows, s1) ∧
        newEvent 1 "2024-01-02".toList "09:30".toList "Standup".toList ∈ rows ∧
        newEvent id "2024-01-02".toList "15:00".toList "Team sync".toList ∈ rows) ∧
      (∃ rows, Store.getEvents "2024-01-02".toList (Store.deleteEvent (.int id) s1).2 =
          (.ok rows, (Store.deleteEvent (.int id) s1).2) ∧ ∀ e ∈ rows, e.id ≠ id) ∧
      Store.deleteEvent (.int 7) Store.empty = (.ok (), Store.empty) ∧
      (strLe (timeString 9 5) (timeString 15 0) = true ↔ 9 * 60 + 5 ≤ 15 * 60 + 0) := by
  obtain ⟨id, s1, h1, _, _, _, ⟨rows, h2, h3, _, _⟩, h4, h5, h6⟩ :=
    addEvent_getEvents_deleteEvent
      (Store.addEvent (some "2024-01-02".toList) (some "09:30".toList)
        (some "Standup".toList) none none Store.empty).2
      "2024-01-02".toList "15:00".toList "Team sync".toList
  exact ⟨id, s1, h1, ⟨rows, h2, (h3 _).2 (Or.inl (by decide)), (h3 _).2 (Or.inr rfl)⟩,
    h4 [] [] _, (h5 Store.empty (.int 7)).2.2.2.2 (by simp [Store.empty]),
    h6 9 5 15 0 (by decide) (by decide) (by decide) (by decide)⟩

/-- C10 (fails on the code): `handleCommand` passes the whole message, not
`msg.chat.id`, to every handler: the replies to `/add`, `/delete`, `/show` and
`/summarize` from chat 42 are addressed to the message object, and
`handleSummarize` queries the messages of the message object. -/
theorem handlers_get_message_not_chat_id :
    (handleCommand recorder (scenarioEnv 0) (commandMsg "/summarize") ⟨[], []⟩).2.db =
      [.getMessages (.message (commandMsg "/summarize")) (.int 24)] ∧
    (handleCommand recorder (scenarioEnv 0) (commandMsg "/summarize") ⟨[], []⟩).2.calls =
      [.sendMessage (.message (commandMsg "/summarize"))
        "No messages found for the specified period.".toList []] ∧
    (handleCommand (sqlite scenarioNow) (scenarioEnv 0) (commandMsg "/add tomorrow at 3pm sync")
        ⟨Store.empty, []⟩).2.calls =
      [.sendMessage (.message (commandMsg "/add tomorrow at 3pm sync"))
        (eventAddedText 1 "2024-01-02".toList "15:00".toList "sync".toList) []] ∧
    (handleCommand (sqlite scenarioNow) (scenarioEnv 0) (commandMsg "/delete 1")
        ⟨Store.empty, []⟩).2.calls =
      [.sendMessage (.message (commandMsg "/delete 1")) "Event 1 has been deleted.".toList []] ∧
    (handleCommand (sqlite scenarioNow) (scenarioEnv 0) (commandMsg "/show")
        ⟨Store.empty, []⟩).2.calls =
      [.sendMessage (.message (commandMsg "/show")) "No events found for 2024-01-01".toList []] ∧
    ChatArg.message (commandMsg "/summarize") ≠ ChatArg.id (commandMsg "/summarize").chatId := by
  refine ⟨?_, ?_, ?_, ?_, ?_, ?_⟩ <;> decide

end TgBot
